import Mathlib

/-!
Shallow embedding of the client-side behavioral feature tracker implemented in
`src/frontend/src/pages/StressBehaviour.jsx` (the `useBehaviorTracker` hook and
its helpers `quantile`, `pruneOld`, `onKeyDownDoc`, `onKeyUpDoc`, `onMouseMove`,
`onMouseDown`, `onWheel`, `snapshotFeatures`).

Modelling conventions:
* JavaScript numbers (timestamps in ms from `performance.now()`, pixel
  coordinates) are modelled as exact rationals `ℚ`; the Euclidean distance
  `Math.hypot` forces the mouse distance/speed statistics into `ℝ`.
* The two clocks of the source (`performance.now()` in milliseconds and
  `Date.now()/1000` in whole epoch seconds) are passed explicitly to every
  handler as a pair `(t : ℚ, sec : ℤ)`, one reading per handler invocation.
* The mutable closure state `ref.current` becomes the structure
  `TrackerState`.  The JS `Set` of active epoch seconds becomes a `Finset ℤ`.
  The fields `lastKey` and `lastMouse` of the source are write-only debug
  fields (they are never read by pruning or by `snapshotFeatures`), so they
  are not part of the modelled state.
* `updateDebug` only writes to the React debug pane (`setDebug`), never to the
  tracker's own buffers, so it has no counterpart in the model.
* Event handlers guard on `enabled` exactly as the source (`if (!enabled)
  return`).
* `Number(x.toFixed(3))` is modelled as rounding to the nearest thousandth.
-/

attribute [local semireducible] Rat.add Rat.mul Rat.sub Rat.inv

/-- `WINDOW_MS` constant of the source (line 23): the 10 s trailing window. -/
def WINDOW_MS : ℚ := 10000

/-- Window length in whole seconds, `Math.ceil(WINDOW_MS / 1000)` = 10. -/
def secWindow : ℤ := 10

/-- One entry of `ref.current.keyPresses`: `{ down_ts, up_ts?, code }`. -/
structure KeyPress where
  down_ts : ℚ
  up_ts : Option ℚ
  code : String
deriving DecidableEq, Repr

/-- One entry of `ref.current.mouseEvents`: `[t_ms, x, y, type]` with
`type`: 0 move, 1 click, 2 scroll. -/
structure MouseEv where
  t : ℚ
  x : ℚ
  y : ℚ
  typ : ℕ
deriving DecidableEq, Repr

/-- One element of the `key_events` sequence returned by `snapshotFeatures`:
`{ down_ts, up_ts, next_down_ts }`. -/
structure KeyEventOut where
  down_ts : ℚ
  up_ts : ℚ
  next_down_ts : ℚ
deriving DecidableEq, Repr

/-- The tracker's buffered state, the closure object `ref.current`. -/
structure TrackerState where
  keyPresses : List KeyPress
  keydowns_times : List ℚ
  mouseEvents : List MouseEv
  activeSeconds : Finset ℤ
deriving DecidableEq

/-- The initial state of the tracker: all buffers empty. -/
def initState : TrackerState :=
  { keyPresses := [], keydowns_times := [], mouseEvents := [], activeSeconds := ∅ }

/-- Membership test for a key press whose up timestamp exists and is at or
after the cutoff: `p.up_ts != null && p.up_ts >= cutoff`. -/
def upInWin (cutoff : ℚ) (p : KeyPress) : Bool :=
  match p.up_ts with
  | some u => decide (cutoff ≤ u)
  | none => false

/-- Retention predicate shared by `pruneOld` (line 75) and the window filter of
`snapshotFeatures` (line 186): `p.down_ts >= cutoff || (p.up_ts != null &&
p.up_ts >= cutoff)`. -/
def keepKey (cutoff : ℚ) (p : KeyPress) : Bool :=
  decide (cutoff ≤ p.down_ts) || upInWin cutoff p

/-- `markActive` (line 57): insert the current epoch second into
`activeSeconds`. -/
def markActive (sec : ℤ) (s : TrackerState) : TrackerState :=
  { s with activeSeconds := insert sec s.activeSeconds }

/-- `pruneOld` (lines 72-82): drop everything older than `WINDOW_MS` plus a
0.5 s buffer, and epoch seconds older than the last window. -/
def pruneOld (now : ℚ) (nowSec : ℤ) (s : TrackerState) : TrackerState :=
  let cutoff := now - WINDOW_MS - 500
  let epochCut := nowSec - secWindow
  { keyPresses := s.keyPresses.filter (keepKey cutoff)
    keydowns_times := s.keydowns_times.filter (fun t => decide (cutoff ≤ t))
    mouseEvents := s.mouseEvents.filter (fun ev => decide (cutoff ≤ ev.t))
    activeSeconds := s.activeSeconds.filter (fun sec => epochCut ≤ sec) }

/-- `onKeyDownDoc` (lines 85-99): when enabled, record a new open press,
record the down time, mark the second active, prune. -/
def onKeyDownDoc (enabled : Bool) (code : String) (t : ℚ) (sec : ℤ)
    (s : TrackerState) : TrackerState :=
  if !enabled then s else
  let s1 := { s with
    keyPresses := s.keyPresses ++ [{ down_ts := t, up_ts := none, code := code }]
    keydowns_times := s.keydowns_times ++ [t] }
  pruneOld t sec (markActive sec s1)

/-- The search loop of `onKeyUpDoc` (lines 109-112) viewed from the tail: close
the first open press with the matching code in the given list. -/
def closeFirstOpen (code : String) (t1 : ℚ) : List KeyPress → List KeyPress
  | [] => []
  | p :: rest =>
    if p.up_ts = none ∧ p.code = code then { p with up_ts := some t1 } :: rest
    else p :: closeFirstOpen code t1 rest

/-- The source iterates `keyPresses` from the most recent record backwards and
closes the first open press of the same code it finds. -/
def closeLatestOpen (code : String) (t1 : ℚ) (l : List KeyPress) : List KeyPress :=
  (closeFirstOpen code t1 l.reverse).reverse

/-- `onKeyUpDoc` (lines 101-117): when enabled, close the latest open press of
the same code (if any), mark the second active, prune. -/
def onKeyUpDoc (enabled : Bool) (code : String) (t1 : ℚ) (sec : ℤ)
    (s : TrackerState) : TrackerState :=
  if !enabled then s else
  let s1 := { s with keyPresses := closeLatestOpen code t1 s.keyPresses }
  pruneOld t1 sec (markActive sec s1)

/-- `onMouseMove` (lines 123-137): when enabled, append a move record, mark the
second active, prune. -/
def onMouseMove (enabled : Bool) (x y : ℚ) (t : ℚ) (sec : ℤ)
    (s : TrackerState) : TrackerState :=
  if !enabled then s else
  pruneOld t sec (markActive sec
    { s with mouseEvents := s.mouseEvents ++ [{ t := t, x := x, y := y, typ := 0 }] })

/-- `onMouseDown` (lines 139-145): like `onMouseMove` with record type 1. -/
def onMouseDown (enabled : Bool) (x y : ℚ) (t : ℚ) (sec : ℤ)
    (s : TrackerState) : TrackerState :=
  if !enabled then s else
  pruneOld t sec (markActive sec
    { s with mouseEvents := s.mouseEvents ++ [{ t := t, x := x, y := y, typ := 1 }] })

/-- `onWheel` (lines 147-153): like `onMouseMove` with record type 2. -/
def onWheel (enabled : Bool) (x y : ℚ) (t : ℚ) (sec : ℤ)
    (s : TrackerState) : TrackerState :=
  if !enabled then s else
  pruneOld t sec (markActive sec
    { s with mouseEvents := s.mouseEvents ++ [{ t := t, x := x, y := y, typ := 2 }] })

/-- The mean used throughout `snapshotFeatures`:
`list.length ? list.reduce((a,b)=>a+b,0)/list.length : 0`. -/
def listMean (l : List ℚ) : ℚ :=
  if l.length = 0 then 0 else l.sum / l.length

/-- `quantile` (line 32): sort ascending, interpolate linearly at position
`(n-1)*q`; 0 for the empty list.  `Math.floor` on the (nonnegative, for
`q ∈ [0,1]`) position is `Rat.floor` followed by `Int.toNat`. -/
def quantile (arr : List ℚ) (q : ℚ) : ℚ :=
  if arr.length = 0 then 0 else
  let a := arr.insertionSort (· ≤ ·)
  let pos := ((a.length : ℚ) - 1) * q
  let b := (Rat.floor pos).toNat
  let r := pos - Rat.floor pos
  match a.get? (b + 1) with
  | some nxt => a.getD b 0 + r * (nxt - a.getD b 0)
  | none => a.getD b 0

/-- Dwell time of one press (line 194):
`Math.max((p.up_ts ?? p.down_ts) - p.down_ts, 0)`. -/
def dwellOf (p : KeyPress) : ℚ :=
  max ((p.up_ts.getD p.down_ts) - p.down_ts) 0

/-- Inter-key gaps (lines 200-204): clamped consecutive differences of the
sorted down timestamps.  (`isFinite` never fails in the exact model.) -/
def gapsOf (l : List ℚ) : List ℚ :=
  (l.zip l.tail).map (fun pr => max (pr.2 - pr.1) 0)

/-- Adjacent-pair guard of the mouse loop (line 222): `typ1 === 0 || typ0 === 0`
where the pair is `(mev[i-1], mev[i])`. -/
def movePair (pr : MouseEv × MouseEv) : Bool :=
  decide (pr.2.typ = 0) || decide (pr.1.typ = 0)

/-- Euclidean pixel distance of an adjacent pair (line 223):
`Math.hypot(x1 - x0, y1 - y0)`. -/
noncomputable def pairDist (pr : MouseEv × MouseEv) : ℝ :=
  Real.sqrt (((pr.2.x : ℝ) - (pr.1.x : ℝ)) ^ 2 + ((pr.2.y : ℝ) - (pr.1.y : ℝ)) ^ 2)

/-- `totalDist` accumulated by the loop at lines 218-233: the distances of all
adjacent pairs involving a move.  (`isFinite(dist)` never fails in `ℝ`.) -/
noncomputable def totalDistOf (mev : List MouseEv) : ℝ :=
  (((mev.zip mev.tail).filter movePair).map pairDist).sum

/-- The `speeds` list of the same loop: a sample `dist / dt` (with `dt` in
seconds) for every adjacent move pair whose elapsed time is positive. -/
noncomputable def speedsOf (mev : List MouseEv) : List ℝ :=
  ((mev.zip mev.tail).filter (fun pr => movePair pr && decide (pr.1.t < pr.2.t))).map
    (fun pr => pairDist pr / (((pr.2.t : ℝ) - (pr.1.t : ℝ)) / 1000))

/-- Real-valued mean with the same empty guard as `listMean`. -/
noncomputable def listMeanR (l : List ℝ) : ℝ :=
  if l.length = 0 then 0 else l.sum / l.length

/-- `Number(x.toFixed(3))` (line 274): round to the nearest thousandth. -/
def roundTo3 (x : ℚ) : ℚ := (round (x * 1000) : ℤ) / 1000

/-- The `next_down_ts` annotation loop (lines 249-252): each element points at
the following down timestamp, the last one at its own resolved up
timestamp. -/
def withNextDown : List (ℚ × ℚ) → List KeyEventOut
  | [] => []
  | [e] => [{ down_ts := e.1, up_ts := e.2, next_down_ts := e.2 }]
  | e :: e2 :: rest =>
    { down_ts := e.1, up_ts := e.2, next_down_ts := e2.1 } :: withNextDown (e2 :: rest)

/-- `keyPressesW` (line 186): the key records restricted to the trailing
window. -/
def keyPressesWOf (now : ℚ) (s : TrackerState) : List KeyPress :=
  s.keyPresses.filter (keepKey (now - WINDOW_MS))

/-- `mev` (line 210): the in-window mouse records in ascending time order. -/
def mevWOf (now : ℚ) (s : TrackerState) : List MouseEv :=
  (s.mouseEvents.filter (fun ev => decide (now - WINDOW_MS ≤ ev.t))).insertionSort
    (fun a b => a.t ≤ b.t)

/-- `activeSecondsCount` (line 240): distinct active seconds within the last
`secWindow` seconds. -/
def activeCountOf (nowSec : ℤ) (s : TrackerState) : ℕ :=
  (s.activeSeconds.filter (fun sec => nowSec - secWindow ≤ sec)).card

/-- The payload built by `snapshotFeatures` (lines 256-282). -/
structure FeatureSnapshot where
  ks_event_count : ℕ
  ks_keydowns : ℕ
  ks_keyups : ℕ
  ks_unique_keys : ℕ
  ks_mean_dwell_ms : ℚ
  ks_median_dwell_ms : ℚ
  ks_p95_dwell_ms : ℚ
  ks_mean_ikg_ms : ℚ
  ks_median_ikg_ms : ℚ
  ks_p95_ikg_ms : ℚ
  mouse_move_count : ℕ
  mouse_click_count : ℕ
  mouse_scroll_count : ℕ
  mouse_total_distance_px : ℝ
  mouse_mean_speed_px_s : ℝ
  mouse_max_speed_px_s : ℝ
  active_seconds_fraction : ℚ
  key_events : List KeyEventOut
  mouse_events : List MouseEv
  head : String

/-- `snapshotFeatures` (lines 180-283): the feature snapshot of the trailing
window ending at `now` (ms clock) and `nowSec` (epoch-seconds clock). -/
noncomputable def snapshotFeatures (now : ℚ) (nowSec : ℤ) (s : TrackerState) :
    FeatureSnapshot :=
  let cut := now - WINDOW_MS
  let keyPressesW := keyPressesWOf now s
  let downsW := (keyPressesW.map KeyPress.down_ts).insertionSort (· ≤ ·)
  let uniqueKeys := (keyPressesW.map KeyPress.code).dedup
  let keydowns := (keyPressesW.filter (fun p => decide (cut ≤ p.down_ts))).length
  let keyups := (keyPressesW.filter (upInWin cut)).length
  let dwell := keyPressesW.map dwellOf
  let ikg := gapsOf downsW
  let mev := mevWOf now s
  let speeds := speedsOf mev
  { ks_event_count := keydowns + keyups
    ks_keydowns := keydowns
    ks_keyups := keyups
    ks_unique_keys := uniqueKeys.length
    ks_mean_dwell_ms := listMean dwell
    ks_median_dwell_ms := quantile dwell (1/2)
    ks_p95_dwell_ms := quantile dwell (19/20)
    ks_mean_ikg_ms := listMean ikg
    ks_median_ikg_ms := quantile ikg (1/2)
    ks_p95_ikg_ms := quantile ikg (19/20)
    mouse_move_count := (mev.filter (fun ev => decide (ev.typ = 0))).length
    mouse_click_count := (mev.filter (fun ev => decide (ev.typ = 1))).length
    mouse_scroll_count := (mev.filter (fun ev => decide (ev.typ = 2))).length
    mouse_total_distance_px := totalDistOf mev
    mouse_mean_speed_px_s := listMeanR speeds
    mouse_max_speed_px_s := speeds.foldl max 0
    active_seconds_fraction :=
      roundTo3 (min 1 ((activeCountOf nowSec s : ℚ) / (secWindow : ℚ)))
    key_events := withNextDown
      ((keyPressesW.map (fun p => (p.down_ts, p.up_ts.getD p.down_ts))).insertionSort
        (fun a b => a.1 ≤ b.1))
    mouse_events := mev
    head := "hybrid" }

/-- The snapshot operation as a state transformer.  The body of
`snapshotFeatures` in the source only reads `ref.current` (every `.filter`,
`.map`, spread-`sort` works on fresh arrays), so the state component passes
through untouched. -/
noncomputable def snapshotStep (now : ℚ) (nowSec : ℤ) (s : TrackerState) :
    TrackerState × FeatureSnapshot :=
  (s, snapshotFeatures now nowSec s)

/-- Restriction of a tracker state to exactly the records that lie inside the
trailing window of `snapshot(now)`: key presses with an in-window timestamp,
down times and mouse events at or after `now - WINDOW_MS`, and active seconds
within the last `secWindow` seconds. -/
def filterWindow (now : ℚ) (nowSec : ℤ) (s : TrackerState) : TrackerState :=
  { keyPresses := s.keyPresses.filter (keepKey (now - WINDOW_MS))
    keydowns_times := s.keydowns_times.filter (fun t => decide (now - WINDOW_MS ≤ t))
    mouseEvents := s.mouseEvents.filter (fun ev => decide (now - WINDOW_MS ≤ ev.t))
    activeSeconds := s.activeSeconds.filter (fun sec => nowSec - secWindow ≤ sec) }

/-- Modelled from the spec: the percentile computation as §4 words it -- sort
ascending, `p = q × (n−1)`, `lo = floor p`, `frac = p − lo`, then
`list[lo] + frac × (list[lo+1] − list[lo])` when index `lo+1` exists and
`list[lo]` otherwise; empty list to 0. -/
def quantileSpec (l : List ℚ) (q : ℚ) : ℚ :=
  if l = [] then 0 else
  let a := l.insertionSort (· ≤ ·)
  let p := q * ((a.length : ℚ) - 1)
  let lo := (Rat.floor p).toNat
  let frac := p - Rat.floor p
  if lo + 1 < a.length then a.getD lo 0 + frac * (a.getD (lo + 1) 0 - a.getD lo 0)
  else a.getD lo 0

/-- One raw input event as delivered to the tracker's handlers, carrying the
two clock readings of its invocation. -/
inductive TrackerEv where
  | keyDown (code : String) (t : ℚ) (sec : ℤ)
  | keyUp (code : String) (t : ℚ) (sec : ℤ)
  | mouseMove (x y : ℚ) (t : ℚ) (sec : ℤ)
  | mouseDown (x y : ℚ) (t : ℚ) (sec : ℤ)
  | wheel (x y : ℚ) (t : ℚ) (sec : ℤ)
deriving DecidableEq, Repr

/-- Dispatch one event to the handler the DOM would invoke for it. -/
def applyEv (enabled : Bool) (s : TrackerState) : TrackerEv → TrackerState
  | TrackerEv.keyDown c t sec => onKeyDownDoc enabled c t sec s
  | TrackerEv.keyUp c t sec => onKeyUpDoc enabled c t sec s
  | TrackerEv.mouseMove x y t sec => onMouseMove enabled x y t sec s
  | TrackerEv.mouseDown x y t sec => onMouseDown enabled x y t sec s
  | TrackerEv.wheel x y t sec => onWheel enabled x y t sec s

/-- Run a sequence of events through the handlers in delivery order. -/
def runEvents (enabled : Bool) (s : TrackerState) (es : List TrackerEv) : TrackerState :=
  es.foldl (applyEv enabled) s

/-- The millisecond timestamp carried by an event. -/
def evTime : TrackerEv → ℚ
  | TrackerEv.keyDown _ t _ => t
  | TrackerEv.keyUp _ t _ => t
  | TrackerEv.mouseMove _ _ t _ => t
  | TrackerEv.mouseDown _ _ t _ => t
  | TrackerEv.wheel _ _ t _ => t

/-- The key code of a keyboard event, `none` for mouse events. -/
def evKeyCode : TrackerEv → Option String
  | TrackerEv.keyDown c _ _ => some c
  | TrackerEv.keyUp c _ _ => some c
  | TrackerEv.mouseMove _ _ _ _ => none
  | TrackerEv.mouseDown _ _ _ _ => none
  | TrackerEv.wheel _ _ _ _ => none

/-- The press opened at `t0` for `K` is still buffered and is the latest open
press of that code: the buffer splits as `B ++ open :: C` where no record of
`C` is an open press for `K`, so the backwards search of `onKeyUpDoc` reaches
exactly this record first among the presses of `K`. -/
def latestOpenAt (K : String) (t0 : ℚ) (l : List KeyPress) : Prop :=
  ∃ B C, l = B ++ { down_ts := t0, up_ts := none, code := K } :: C ∧
    ∀ p ∈ C, ¬(p.up_ts = none ∧ p.code = K)

/-! ## Helper lemmas -/

theorem filter_list_idem {α : Type} (p : α → Bool) (l : List α) :
    (l.filter p).filter p = l.filter p := by
  simp [List.filter_filter]

theorem filter_finset_idem (p : ℤ → Prop) [DecidablePred p] (s : Finset ℤ) :
    (s.filter p).filter p = s.filter p := by
  simp [Finset.filter_filter]

theorem length_le_filter_add_filter {α : Type} (p q : α → Bool) :
    ∀ l : List α, (∀ x ∈ l, p x || q x) →
      l.length ≤ (l.filter p).length + (l.filter q).length := by
  intro l
  induction l with
  | nil => intro _; simp
  | cons a t ih =>
    intro h
    have ht : ∀ x ∈ t, p x || q x := fun x hx => h x (List.mem_cons_of_mem a hx)
    have ha : p a || q a := h a (List.mem_cons_self a t)
    have hih := ih ht
    by_cases hp : p a = true
    · rw [List.filter_cons_of_pos hp]
      have hqle : (t.filter q).length ≤ ((a :: t).filter q).length := by
        by_cases hq : q a = true
        · rw [List.filter_cons_of_pos hq]; simp
        · rw [List.filter_cons_of_neg hq]
      simp only [List.length_cons]
      omega
    · have hq : q a = true := by
        cases hpa : p a with
        | true => exact absurd hpa hp
        | false => simpa [hpa] using ha
      rw [List.filter_cons_of_neg hp, List.filter_cons_of_pos hq]
      simp only [List.length_cons]
      omega

theorem filter_and_length_le {α : Type} (p q : α → Bool) (l : List α) :
    (l.filter (fun a => p a && q a)).length ≤ (l.filter p).length := by
  induction l with
  | nil => simp
  | cons a t ih =>
    by_cases hp : p a = true
    · rw [List.filter_cons_of_pos hp]
      by_cases hq : q a = true
      · rw [List.filter_cons_of_pos (p := fun x => p x && q x) (by simp [hp, hq])]
        simpa using ih
      · rw [List.filter_cons_of_neg (p := fun x => p x && q x) (by simp [hq])]
        simp only [List.length_cons]
        omega
    · rw [List.filter_cons_of_neg hp,
        List.filter_cons_of_neg (p := fun x => p x && q x) (by simp [hp])]
      exact ih

theorem le_foldl_max (l : List ℝ) (a : ℝ) : a ≤ l.foldl max a := by
  induction l generalizing a with
  | nil => exact le_refl a
  | cons b t ih => exact le_trans (le_max_left a b) (ih (max a b))

theorem mem_le_foldl_max : ∀ (l : List ℝ) (a x : ℝ), x ∈ l → x ≤ l.foldl max a
  | [], _, x, hx => absurd hx (List.not_mem_nil x)
  | b :: t, a, x, hx => by
    rcases List.mem_cons.mp hx with rfl | hx'
    · exact le_trans (le_max_right a x) (le_foldl_max t (max a x))
    · exact mem_le_foldl_max t (max a b) x hx'

theorem listMeanR_le_foldl_max (l : List ℝ) : listMeanR l ≤ l.foldl max 0 := by
  unfold listMeanR
  by_cases h : l.length = 0
  · rw [if_pos h]
    exact le_foldl_max l 0
  · rw [if_neg h]
    have hlen : (0 : ℝ) < l.length := by
      have : 0 < l.length := Nat.pos_of_ne_zero h
      exact_mod_cast this
    rw [div_le_iff₀ hlen]
    have hM : ∀ x ∈ l, x ≤ l.foldl max 0 := fun x hx => mem_le_foldl_max l 0 x hx
    calc l.sum ≤ l.length • l.foldl max 0 := List.sum_le_card_nsmul l _ hM
      _ = l.foldl max 0 * l.length := by rw [nsmul_eq_mul]; ring

/-! ## Claims -/

/-- C1: window containment.  Removing every record that lies entirely outside
the trailing window of `snapshot(now)` (key presses with no in-window
timestamp, down-times and mouse events before `now − WINDOW_MS`, active
seconds before `nowSec − secWindow`) leaves every statistic of the returned
`FeatureSnapshot` unchanged: out-of-window records contribute nothing. -/
theorem window_containment (now : ℚ) (nowSec : ℤ) (s : TrackerState) :
    snapshotFeatures now nowSec (filterWindow now nowSec s) =
      snapshotFeatures now nowSec s := by
  have hK : keyPressesWOf now (filterWindow now nowSec s) = keyPressesWOf now s := by
    simp only [keyPressesWOf, filterWindow]
    exact filter_list_idem _ _
  have hM : mevWOf now (filterWindow now nowSec s) = mevWOf now s := by
    simp only [mevWOf, filterWindow]
    rw [filter_list_idem]
  have hA : activeCountOf nowSec (filterWindow now nowSec s) = activeCountOf nowSec s := by
    simp only [activeCountOf, filterWindow]
    rw [filter_finset_idem]
  simp only [snapshotFeatures, hK, hM, hA]

/-- C2 counterexample: a key pressed at `t=0` and released at `t=600`, observed
by a snapshot at `now=10300`, is inside the window only through its key-up
timestamp; it contributes a unique key but no key-down, so
`ks_unique_keys ≤ ks_keydowns` fails on the code. -/
theorem unique_keys_gt_keydowns_cex :
    ¬ ((snapshotFeatures 10300 0
          (onKeyUpDoc true "KeyA" 600 0 (onKeyDownDoc true "KeyA" 0 0 initState))).ks_unique_keys ≤
        (snapshotFeatures 10300 0
          (onKeyUpDoc true "KeyA" 600 0 (onKeyDownDoc true "KeyA" 0 0 initState))).ks_keydowns) := by
  decide

/-- C2 amended: in every snapshot the unique-key count is bounded by the total
keyboard event count `ks_event_count = ks_keydowns + ks_keyups` of that same
snapshot (every in-window record has an in-window down or an in-window up). -/
theorem unique_keys_le_event_count (now : ℚ) (nowSec : ℤ) (s : TrackerState) :
    (snapshotFeatures now nowSec s).ks_unique_keys ≤
      (snapshotFeatures now nowSec s).ks_event_count := by
  show ((keyPressesWOf now s).map KeyPress.code).dedup.length ≤
    ((keyPressesWOf now s).filter (fun p => decide (now - WINDOW_MS ≤ p.down_ts))).length +
      ((keyPressesWOf now s).filter (upInWin (now - WINDOW_MS))).length
  have h1 : ((keyPressesWOf now s).map KeyPress.code).dedup.length ≤
      (keyPressesWOf now s).length := by
    have := List.Sublist.length_le (List.dedup_sublist ((keyPressesWOf now s).map KeyPress.code))
    simpa using this
  refine le_trans h1 (length_le_filter_add_filter _ _ _ ?_)
  intro p hp
  have := List.of_mem_filter hp
  simpa [keepKey] using this

/-- C3: the snapshot operation is read-only on the tracker state: the state
component returned by `snapshotStep` has exactly the key-press buffer, the
keydown-times list, the mouse-event buffer and the active-second set it was
given (the source body never assigns to `ref.current`). -/
theorem snapshot_readonly (now : ℚ) (nowSec : ℤ) (s : TrackerState) :
    (snapshotStep now nowSec s).1.keyPresses = s.keyPresses ∧
    (snapshotStep now nowSec s).1.keydowns_times = s.keydowns_times ∧
    (snapshotStep now nowSec s).1.mouseEvents = s.mouseEvents ∧
    (snapshotStep now nowSec s).1.activeSeconds = s.activeSeconds :=
  ⟨rfl, rfl, rfl, rfl⟩

/-- C4: with `enabled = false` every handler is the identity on the tracker
state, and in particular a snapshot taken after five key-down events delivered
while disabled still reports `ks_keydowns = 0`. -/
theorem disabled_handlers_noop :
    (∀ code t sec s, onKeyDownDoc false code t sec s = s) ∧
    (∀ code t sec s, onKeyUpDoc false code t sec s = s) ∧
    (∀ x y t sec s, onMouseMove false x y t sec s = s) ∧
    (∀ x y t sec s, onMouseDown false x y t sec s = s) ∧
    (∀ x y t sec s, onWheel false x y t sec s = s) ∧
    (snapshotFeatures 1000 1
        (onKeyDownDoc false "KeyE" 40 0 (onKeyDownDoc false "KeyD" 30 0
          (onKeyDownDoc false "KeyC" 20 0 (onKeyDownDoc false "KeyB" 10 0
            (onKeyDownDoc false "KeyA" 0 0 initState)))))).ks_keydowns = 0 :=
  ⟨fun _ _ _ _ => rfl, fun _ _ _ _ => rfl, fun _ _ _ _ _ => rfl,
   fun _ _ _ _ _ => rfl, fun _ _ _ _ _ => rfl, rfl⟩

/-- C5: a snapshot of the empty tracker state returns zero for every count,
every dwell/gap/distance/speed statistic and the activity fraction, and empty
event sequences, for any `now`. -/
theorem empty_snapshot_zero (now : ℚ) (nowSec : ℤ) :
    (snapshotFeatures now nowSec initState).ks_event_count = 0 ∧
    (snapshotFeatures now nowSec initState).ks_keydowns = 0 ∧
    (snapshotFeatures now nowSec initState).ks_keyups = 0 ∧
    (snapshotFeatures now nowSec initState).ks_unique_keys = 0 ∧
    (snapshotFeatures now nowSec initState).ks_mean_dwell_ms = 0 ∧
    (snapshotFeatures now nowSec initState).ks_median_dwell_ms = 0 ∧
    (snapshotFeatures now nowSec initState).ks_p95_dwell_ms = 0 ∧
    (snapshotFeatures now nowSec initState).ks_mean_ikg_ms = 0 ∧
    (snapshotFeatures now nowSec initState).ks_median_ikg_ms = 0 ∧
    (snapshotFeatures now nowSec initState).ks_p95_ikg_ms = 0 ∧
    (snapshotFeatures now nowSec initState).mouse_move_count = 0 ∧
    (snapshotFeatures now nowSec initState).mouse_click_count = 0 ∧
    (snapshotFeatures now nowSec initState).mouse_scroll_count = 0 ∧
    (snapshotFeatures now nowSec initState).mouse_total_distance_px = 0 ∧
    (snapshotFeatures now nowSec initState).mouse_mean_speed_px_s = 0 ∧
    (snapshotFeatures now nowSec initState).mouse_max_speed_px_s = 0 ∧
    (snapshotFeatures now nowSec initState).active_seconds_fraction = 0 ∧
    (snapshotFeatures now nowSec initState).key_events = [] ∧
    (snapshotFeatures now nowSec initState).mouse_events = [] := by
  refine ⟨rfl, rfl, rfl, rfl, rfl, rfl, rfl, rfl, rfl, rfl, rfl, rfl, rfl, rfl, rfl, rfl,
    ?_, rfl, rfl⟩
  show roundTo3 (min 1 ((0 : ℚ) / (secWindow : ℚ))) = 0
  decide

theorem closeFirstOpen_no_match (code : String) (t1 : ℚ) :
    ∀ l : List KeyPress, (∀ p ∈ l, ¬(p.up_ts = none ∧ p.code = code)) →
      closeFirstOpen code t1 l = l := by
  intro l
  induction l with
  | nil => intro _; rfl
  | cons p rest ih =>
    intro h
    rw [closeFirstOpen, if_neg (h p (List.mem_cons_self p rest))]
    rw [ih (fun x hx => h x (List.mem_cons_of_mem p hx))]

theorem closeFirstOpen_append_no_match (code : String) (t1 : ℚ) :
    ∀ (l₁ l₂ : List KeyPress), (∀ p ∈ l₁, ¬(p.up_ts = none ∧ p.code = code)) →
      closeFirstOpen code t1 (l₁ ++ l₂) = l₁ ++ closeFirstOpen code t1 l₂ := by
  intro l₁
  induction l₁ with
  | nil => intro l₂ _; rfl
  | cons p rest ih =>
    intro l₂ h
    rw [List.cons_append, closeFirstOpen, if_neg (h p (List.mem_cons_self p rest))]
    rw [ih l₂ (fun x hx => h x (List.mem_cons_of_mem p hx))]
    rfl

theorem latestOpenAt_filter (K : String) (t0 cutoff : ℚ) (hco : cutoff ≤ t0)
    (l : List KeyPress) (h : latestOpenAt K t0 l) :
    latestOpenAt K t0 (l.filter (keepKey cutoff)) := by
  obtain ⟨B, C, heq, hC⟩ := h
  have hkeep : keepKey cutoff { down_ts := t0, up_ts := none, code := K } = true := by
    simp only [keepKey, upInWin, Bool.or_eq_true, decide_eq_true_eq]
    exact Or.inl hco
  refine ⟨B.filter (keepKey cutoff), C.filter (keepKey cutoff), ?_, ?_⟩
  · rw [heq, List.filter_append, List.filter_cons_of_pos hkeep]
  · exact fun p hp => hC p (List.mem_of_mem_filter hp)

theorem latestOpenAt_append (K : String) (t0 : ℚ) (l : List KeyPress) (r : KeyPress)
    (hr : ¬(r.up_ts = none ∧ r.code = K)) (h : latestOpenAt K t0 l) :
    latestOpenAt K t0 (l ++ [r]) := by
  obtain ⟨B, C, heq, hC⟩ := h
  refine ⟨B, C ++ [r], ?_, ?_⟩
  · rw [heq, List.append_assoc]
    rfl
  · intro p hp
    rcases List.mem_append.mp hp with hp | hp
    · exact hC p hp
    · rw [List.mem_singleton.mp hp]
      exact hr

theorem closeFirstOpen_shape (c K : String) (hKc : ¬ K = c) (t t0 : ℚ) :
    ∀ (C B : List KeyPress), (∀ p ∈ C, ¬(p.up_ts = none ∧ p.code = K)) →
      ∃ C₂ B₂,
        closeFirstOpen c t (C ++ { down_ts := t0, up_ts := none, code := K } :: B) =
          C₂ ++ { down_ts := t0, up_ts := none, code := K } :: B₂ ∧
        ∀ p ∈ C₂, ¬(p.up_ts = none ∧ p.code = K) := by
  intro C
  induction C with
  | nil =>
    intro B _
    rw [List.nil_append, closeFirstOpen, if_neg (fun hh => hKc hh.2)]
    exact ⟨[], closeFirstOpen c t B, rfl, by simp⟩
  | cons x C' ih =>
    intro B hC
    rw [List.cons_append, closeFirstOpen]
    by_cases hx : x.up_ts = none ∧ x.code = c
    · rw [if_pos hx]
      refine ⟨{ x with up_ts := some t } :: C', B, rfl, ?_⟩
      intro p hp
      rcases List.mem_cons.mp hp with rfl | hp
      · intro hcon
        exact Option.noConfusion hcon.1
      · exact hC p (List.mem_cons_of_mem x hp)
    · rw [if_neg hx]
      obtain ⟨C₂, B₂, heq, hprop⟩ := ih B (fun p hp => hC p (List.mem_cons_of_mem x hp))
      refine ⟨x :: C₂, B₂, ?_, ?_⟩
      · rw [heq]
        rfl
      · intro p hp
        rcases List.mem_cons.mp hp with rfl | hp
        · exact hC p (List.mem_cons_self p C')
        · exact hprop p hp

theorem latestOpenAt_closeLatest (c K : String) (hKc : ¬ K = c) (t t0 : ℚ)
    (l : List KeyPress) (h : latestOpenAt K t0 l) :
    latestOpenAt K t0 (closeLatestOpen c t l) := by
  obtain ⟨B, C, heq, hC⟩ := h
  unfold closeLatestOpen
  rw [heq, List.reverse_append, List.reverse_cons, List.append_assoc, List.singleton_append]
  obtain ⟨C₂, B₂, heq₂, hprop₂⟩ := closeFirstOpen_shape c K hKc t t0 C.reverse B.reverse
    (fun p hp => hC p (List.mem_reverse.mp hp))
  rw [heq₂, List.reverse_append, List.reverse_cons, List.append_assoc, List.singleton_append]
  exact ⟨B₂.reverse, C₂.reverse, rfl, fun p hp => hprop₂ p (List.mem_reverse.mp hp)⟩

theorem applyEv_latestOpenAt (K : String) (t0 : ℚ) (e : TrackerEv) (s : TrackerState)
    (hcode : evKeyCode e ≠ some K) (htime : evTime e ≤ t0 + WINDOW_MS + 500)
    (h : latestOpenAt K t0 s.keyPresses) :
    latestOpenAt K t0 (applyEv true s e).keyPresses := by
  cases e with
  | keyDown c t sec =>
    have hc : ¬ c = K := by
      intro hh
      exact hcode (by simp [evKeyCode, hh])
    have ht' : t - WINDOW_MS - 500 ≤ t0 := by
      simp only [evTime] at htime
      linarith
    show latestOpenAt K t0
      ((s.keyPresses ++ [({ down_ts := t, up_ts := none, code := c } : KeyPress)]).filter
        (keepKey (t - WINDOW_MS - 500)))
    exact latestOpenAt_filter K t0 _ ht' _
      (latestOpenAt_append K t0 _ _ (fun hcon => hc hcon.2) h)
  | keyUp c t sec =>
    have hc : ¬ K = c := by
      intro hh
      exact hcode (by simp [evKeyCode, hh])
    have ht' : t - WINDOW_MS - 500 ≤ t0 := by
      simp only [evTime] at htime
      linarith
    show latestOpenAt K t0
      ((closeLatestOpen c t s.keyPresses).filter (keepKey (t - WINDOW_MS - 500)))
    exact latestOpenAt_filter K t0 _ ht' _ (latestOpenAt_closeLatest c K hc t t0 _ h)
  | mouseMove x y t sec =>
    have ht' : t - WINDOW_MS - 500 ≤ t0 := by
      simp only [evTime] at htime
      linarith
    show latestOpenAt K t0 (s.keyPresses.filter (keepKey (t - WINDOW_MS - 500)))
    exact latestOpenAt_filter K t0 _ ht' _ h
  | mouseDown x y t sec =>
    have ht' : t - WINDOW_MS - 500 ≤ t0 := by
      simp only [evTime] at htime
      linarith
    show latestOpenAt K t0 (s.keyPresses.filter (keepKey (t - WINDOW_MS - 500)))
    exact latestOpenAt_filter K t0 _ ht' _ h
  | wheel x y t sec =>
    have ht' : t - WINDOW_MS - 500 ≤ t0 := by
      simp only [evTime] at htime
      linarith
    show latestOpenAt K t0 (s.keyPresses.filter (keepKey (t - WINDOW_MS - 500)))
    exact latestOpenAt_filter K t0 _ ht' _ h

theorem runEvents_latestOpenAt (K : String) (t0 : ℚ) :
    ∀ (es : List TrackerEv) (s : TrackerState),
      (∀ e ∈ es, evKeyCode e ≠ some K) →
      (∀ e ∈ es, evTime e ≤ t0 + WINDOW_MS + 500) →
      latestOpenAt K t0 s.keyPresses →
      latestOpenAt K t0 (runEvents true s es).keyPresses := by
  intro es
  induction es with
  | nil => intro s _ _ h; exact h
  | cons e es ih =>
    intro s h1 h2 h
    exact ih (applyEv true s e)
      (fun x hx => h1 x (List.mem_cons_of_mem e hx))
      (fun x hx => h2 x (List.mem_cons_of_mem e hx))
      (applyEv_latestOpenAt K t0 e s (h1 e (List.mem_cons_self e es))
        (h2 e (List.mem_cons_self e es)) h)

theorem closeLatestOpen_resolves (K : String) (t1 t0 : ℚ) (l : List KeyPress)
    (h : latestOpenAt K t0 l) :
    ∃ B C, closeLatestOpen K t1 l =
      B ++ { down_ts := t0, up_ts := some t1, code := K } :: C := by
  obtain ⟨B, C, heq, hC⟩ := h
  unfold closeLatestOpen
  rw [heq, List.reverse_append, List.reverse_cons, List.append_assoc, List.singleton_append]
  rw [closeFirstOpen_append_no_match K t1 C.reverse _
    (fun p hp => hC p (List.mem_reverse.mp hp))]
  rw [closeFirstOpen, if_pos ⟨rfl, rfl⟩]
  rw [List.reverse_append, List.reverse_cons]
  simp only [List.reverse_reverse]
  rw [List.append_assoc, List.singleton_append]
  exact ⟨B, C, rfl⟩

/-- C6 counterexample: a key-up for the same code may intervene even though no
key-down for it does.  Down `KeyA` at `t=0`, up `KeyA` at `t=50` (intervening,
not a key-down), up `KeyA` at `t1=100`: the press pairs with the first up, the
buffer holds only the record with dwell 50, no press has dwell `t1 − t0 = 100`,
and the snapshot mean dwell is 50. -/
theorem dwell_pairing_cex :
    (onKeyUpDoc true "KeyA" 100 0 (onKeyUpDoc true "KeyA" 50 0
        (onKeyDownDoc true "KeyA" 0 0 initState))).keyPresses =
      [{ down_ts := 0, up_ts := some 50, code := "KeyA" }] ∧
    (∀ p ∈ (onKeyUpDoc true "KeyA" 100 0 (onKeyUpDoc true "KeyA" 50 0
        (onKeyDownDoc true "KeyA" 0 0 initState))).keyPresses, dwellOf p ≠ (100 : ℚ)) ∧
    (snapshotFeatures 200 0 (onKeyUpDoc true "KeyA" 100 0 (onKeyUpDoc true "KeyA" 50 0
        (onKeyDownDoc true "KeyA" 0 0 initState)))).ks_mean_dwell_ms = 50 :=
  ⟨by decide, by decide, by decide⟩

/-- C6 (amended): pairing correctness.  A key-down for `K` at `t0`, followed by
any sequence of intervening handler events that contains no key event (down or
up) for `K` and whose timestamps stay within `t0 + WINDOW_MS + 500` (so pruning
cannot evict the still-open press), followed by a key-up for `K` at `t1 > t0`,
closes exactly the press opened at `t0`: the resulting buffer contains that
record with up timestamp `t1`, and its computed dwell is exactly `t1 − t0`.
Concretely, a press of `KeyX` at `t=0` released at `t=100`, snapshotted at
`t=200`, yields `ks_keydowns = 1`, `ks_keyups = 1`, `ks_mean_dwell_ms = 100`. -/
theorem dwell_pairing (s : TrackerState) (K : String) (t0 t1 : ℚ) (sec0 sec1 : ℤ)
    (es : List TrackerEv)
    (hcode : ∀ e ∈ es, evKeyCode e ≠ some K)
    (htime : ∀ e ∈ es, evTime e ≤ t0 + WINDOW_MS + 500)
    (h01 : t0 < t1) :
    ((∃ B C, (onKeyUpDoc true K t1 sec1
        (runEvents true (onKeyDownDoc true K t0 sec0 s) es)).keyPresses =
          B ++ { down_ts := t0, up_ts := some t1, code := K } :: C) ∧
      dwellOf { down_ts := t0, up_ts := some t1, code := K } = t1 - t0) ∧
    ((snapshotFeatures 200 0
        (onKeyUpDoc true "KeyX" 100 0 (onKeyDownDoc true "KeyX" 0 0 initState))).ks_keydowns = 1 ∧
      (snapshotFeatures 200 0
        (onKeyUpDoc true "KeyX" 100 0 (onKeyDownDoc true "KeyX" 0 0 initState))).ks_keyups = 1 ∧
      (snapshotFeatures 200 0
        (onKeyUpDoc true "KeyX" 100 0 (onKeyDownDoc true "KeyX" 0 0 initState))).ks_mean_dwell_ms =
        100) := by
  refine ⟨⟨?_, ?_⟩, by decide, by decide, by decide⟩
  · have hdown : latestOpenAt K t0 (onKeyDownDoc true K t0 sec0 s).keyPresses := by
      have hbase : latestOpenAt K t0
          (s.keyPresses ++ [{ down_ts := t0, up_ts := none, code := K }]) :=
        ⟨s.keyPresses, [], rfl, by simp⟩
      show latestOpenAt K t0
        ((s.keyPresses ++ [({ down_ts := t0, up_ts := none, code := K } : KeyPress)]).filter
          (keepKey (t0 - WINDOW_MS - 500)))
      refine latestOpenAt_filter K t0 _ ?_ _ hbase
      simp only [WINDOW_MS]
      linarith
    have hrun : latestOpenAt K t0
        (runEvents true (onKeyDownDoc true K t0 sec0 s) es).keyPresses :=
      runEvents_latestOpenAt K t0 es _ hcode htime hdown
    obtain ⟨B₂, C₂, heq₂⟩ := closeLatestOpen_resolves K t1 t0 _ hrun
    have hclosed : keepKey (t1 - WINDOW_MS - 500)
        { down_ts := t0, up_ts := some t1, code := K } = true := by
      simp only [keepKey, upInWin, Bool.or_eq_true, decide_eq_true_eq]
      right
      simp only [WINDOW_MS]
      linarith
    show ∃ B C, ((closeLatestOpen K t1
        (runEvents true (onKeyDownDoc true K t0 sec0 s) es).keyPresses).filter
          (keepKey (t1 - WINDOW_MS - 500))) =
      B ++ { down_ts := t0, up_ts := some t1, code := K } :: C
    rw [heq₂, List.filter_append, List.filter_cons_of_pos hclosed]
    exact ⟨_, _, rfl⟩
  · simp only [dwellOf, Option.getD_some]
    rw [max_eq_left (by linarith)]

/-- C6 witness: the pairing theorem instantiated with a non-trivial rollover
interleaving -- down `KeyX` at 0, then down `KeyJ` at 30, up `KeyJ` at 80 and a
mouse move at 90, then up `KeyX` at 100 -- so the backwards search must skip
past the later records before closing the `KeyX` press. -/
theorem dwell_pairing_witness :
    (∀ e ∈ [TrackerEv.keyDown "KeyJ" 30 0, TrackerEv.keyUp "KeyJ" 80 0,
        TrackerEv.mouseMove 5 5 90 0], evKeyCode e ≠ some "KeyX") ∧
    (∀ e ∈ [TrackerEv.keyDown "KeyJ" 30 0, TrackerEv.keyUp "KeyJ" 80 0,
        TrackerEv.mouseMove 5 5 90 0], evTime e ≤ 0 + WINDOW_MS + 500) ∧
    ((0 : ℚ) < 100) ∧
    (((∃ B C, (onKeyUpDoc true "KeyX" 100 0
        (runEvents true (onKeyDownDoc true "KeyX" 0 0 initState)
          [TrackerEv.keyDown "KeyJ" 30 0, TrackerEv.keyUp "KeyJ" 80 0,
            TrackerEv.mouseMove 5 5 90 0])).keyPresses =
          B ++ { down_ts := 0, up_ts := some 100, code := "KeyX" } :: C) ∧
      dwellOf { down_ts := 0, up_ts := some 100, code := "KeyX" } = 100 - 0) ∧
    ((snapshotFeatures 200 0
        (onKeyUpDoc true "KeyX" 100 0 (onKeyDownDoc true "KeyX" 0 0 initState))).ks_keydowns = 1 ∧
      (snapshotFeatures 200 0
        (onKeyUpDoc true "KeyX" 100 0 (onKeyDownDoc true "KeyX" 0 0 initState))).ks_keyups = 1 ∧
      (snapshotFeatures 200 0
        (onKeyUpDoc true "KeyX" 100 0 (onKeyDownDoc true "KeyX" 0 0 initState))).ks_mean_dwell_ms =
        100)) :=
  ⟨by decide, by decide, by decide,
   dwell_pairing initState "KeyX" 0 100 0 0
     [TrackerEv.keyDown "KeyJ" 30 0, TrackerEv.keyUp "KeyJ" 80 0,
       TrackerEv.mouseMove 5 5 90 0]
     (by decide) (by decide) (by decide)⟩

/-- C9: an unmatched key-up (no open record with the matching code) is benign:
the handler is total and its whole effect is marking the second active and
pruning; in particular no existing key-press record is modified and no dwell
sample is created. -/
theorem unmatched_keyup_benign (s : TrackerState) (K : String) (t1 : ℚ) (sec : ℤ)
    (h : ∀ p ∈ s.keyPresses, ¬(p.up_ts = none ∧ p.code = K)) :
    onKeyUpDoc true K t1 sec s = pruneOld t1 sec (markActive sec s) := by
  have hclose : closeLatestOpen K t1 s.keyPresses = s.keyPresses := by
    unfold closeLatestOpen
    rw [closeFirstOpen_no_match K t1 s.keyPresses.reverse
      (fun p hp => h p (List.mem_reverse.mp hp))]
    exact List.reverse_reverse _
  show pruneOld t1 sec (markActive sec { s with keyPresses := closeLatestOpen K t1 s.keyPresses }) =
    pruneOld t1 sec (markActive sec s)
  rw [hclose]

/-- C9 witness: a state whose only record is already closed; the key-up for the
same code at `t1 = 10` reduces to mark-active plus pruning. -/
theorem unmatched_keyup_benign_witness :
    (∀ p ∈ (TrackerState.mk [{ down_ts := 0, up_ts := some 5, code := "KeyA" }] [0] [] ∅).keyPresses,
        ¬(p.up_ts = none ∧ p.code = "KeyA")) ∧
    onKeyUpDoc true "KeyA" 10 0
        (TrackerState.mk [{ down_ts := 0, up_ts := some 5, code := "KeyA" }] [0] [] ∅) =
      pruneOld 10 0 (markActive 0
        (TrackerState.mk [{ down_ts := 0, up_ts := some 5, code := "KeyA" }] [0] [] ∅)) :=
  ⟨by decide,
   unmatched_keyup_benign (TrackerState.mk [{ down_ts := 0, up_ts := some 5, code := "KeyA" }] [0] [] ∅)
     "KeyA" 10 0 (by decide)⟩

/-- C10: in every snapshot the maximum mouse speed bounds the mean mouse speed
(the running maximum over the speed samples dominates their arithmetic mean),
and on a tracker with no speed sample both statistics are 0. -/
theorem max_speed_ge_mean_speed :
    (∀ (now : ℚ) (nowSec : ℤ) (s : TrackerState),
      (snapshotFeatures now nowSec s).mouse_mean_speed_px_s ≤
        (snapshotFeatures now nowSec s).mouse_max_speed_px_s) ∧
    (snapshotFeatures 0 0 initState).mouse_mean_speed_px_s = 0 ∧
    (snapshotFeatures 0 0 initState).mouse_max_speed_px_s = 0 := by
  refine ⟨fun now nowSec s => ?_, rfl, rfl⟩
  show listMeanR (speedsOf (mevWOf now s)) ≤ (speedsOf (mevWOf now s)).foldl max 0
  exact listMeanR_le_foldl_max _

/-- C7: for any list and any quantile `q ∈ [0,1]`, the source `quantile`
function agrees with the spec's description of the percentile computation
(sort ascending, interpolate linearly between the neighbours of position
`q × (n−1)`, 0 on the empty list). -/
theorem quantile_matches_spec (arr : List ℚ) (q : ℚ) (h0 : 0 ≤ q) (h1 : q ≤ 1) :
    quantile arr q = quantileSpec arr q := by
  rcases eq_or_ne arr [] with rfl | hne
  · rfl
  · have hlen0 : ¬ arr.length = 0 := by simpa [List.length_eq_zero] using hne
    simp only [quantile, quantileSpec, if_neg hlen0, if_neg hne]
    rw [mul_comm q (((arr.insertionSort (· ≤ ·)).length : ℚ) - 1)]
    generalize arr.insertionSort (· ≤ ·) = a
    by_cases hlt : (Rat.floor (((a.length : ℚ) - 1) * q)).toNat + 1 < a.length
    · rw [if_pos hlt, List.get?_eq_getElem?, List.getElem?_eq_getElem hlt,
        List.getD_eq_getElem a 0 hlt]
    · rw [if_neg hlt, List.get?_eq_getElem?, List.getElem?_eq_none (le_of_not_lt hlt)]

/-- C7 witness: the agreement evaluated at the list `[3, 1, 4]` with the
median quantile. -/
theorem quantile_matches_spec_witness :
    (0 : ℚ) ≤ 1/2 ∧ (1 : ℚ)/2 ≤ 1 ∧
      quantile [3, 1, 4] (1/2) = quantileSpec [3, 1, 4] (1/2) :=
  ⟨by decide, by decide, quantile_matches_spec [3, 1, 4] (1/2) (by decide) (by decide)⟩

/-- C8: mouse distance and speed.  Two moves from `(0,0)` at `t=0` to `(30,0)`
at `t=1000` give total distance 30 px and mean and max speed 30 px/s; in
general a speed sample exists only for adjacent pairs involving a move, with
positive elapsed time, so there are never more speed samples than adjacent
move pairs. -/
theorem mouse_distance_speed :
    ((snapshotFeatures 1000 1
        (onMouseMove true 30 0 1000 1 (onMouseMove true 0 0 0 0 initState))).mouse_total_distance_px =
        30 ∧
      (snapshotFeatures 1000 1
        (onMouseMove true 30 0 1000 1 (onMouseMove true 0 0 0 0 initState))).mouse_mean_speed_px_s =
        30 ∧
      (snapshotFeatures 1000 1
        (onMouseMove true 30 0 1000 1 (onMouseMove true 0 0 0 0 initState))).mouse_max_speed_px_s =
        30) ∧
    (∀ m : List MouseEv,
      (speedsOf m).length ≤ ((m.zip m.tail).filter movePair).length) := by
  have hm : mevWOf 1000 (onMouseMove true 30 0 1000 1 (onMouseMove true 0 0 0 0 initState)) =
      [{ t := 0, x := 0, y := 0, typ := 0 }, { t := 1000, x := 30, y := 0, typ := 0 }] := by
    decide
  have hd : pairDist ({ t := 0, x := 0, y := 0, typ := 0 },
      { t := 1000, x := 30, y := 0, typ := 0 }) = 30 := by
    unfold pairDist
    push_cast
    norm_num
    rw [show (900 : ℝ) = 30 ^ 2 by norm_num]
    exact Real.sqrt_sq (by norm_num)
  have hz : (([({ t := 0, x := 0, y := 0, typ := 0 } : MouseEv),
        { t := 1000, x := 30, y := 0, typ := 0 }].zip
          [({ t := 0, x := 0, y := 0, typ := 0 } : MouseEv),
            { t := 1000, x := 30, y := 0, typ := 0 }].tail).filter movePair) =
      [({ t := 0, x := 0, y := 0, typ := 0 }, { t := 1000, x := 30, y := 0, typ := 0 })] := by
    decide
  have hzs : (([({ t := 0, x := 0, y := 0, typ := 0 } : MouseEv),
        { t := 1000, x := 30, y := 0, typ := 0 }].zip
          [({ t := 0, x := 0, y := 0, typ := 0 } : MouseEv),
            { t := 1000, x := 30, y := 0, typ := 0 }].tail).filter
        (fun pr => movePair pr && decide (pr.1.t < pr.2.t))) =
      [({ t := 0, x := 0, y := 0, typ := 0 }, { t := 1000, x := 30, y := 0, typ := 0 })] := by
    decide
  have hs : speedsOf [({ t := 0, x := 0, y := 0, typ := 0 } : MouseEv),
      { t := 1000, x := 30, y := 0, typ := 0 }] = [30] := by
    unfold speedsOf
    rw [hzs]
    simp only [List.map_cons, List.map_nil, hd]
    norm_num
  refine ⟨⟨?_, ?_, ?_⟩, ?_⟩
  · show totalDistOf (mevWOf 1000
      (onMouseMove true 30 0 1000 1 (onMouseMove true 0 0 0 0 initState))) = 30
    rw [hm]
    unfold totalDistOf
    rw [hz]
    simp [hd]
  · show listMeanR (speedsOf (mevWOf 1000
      (onMouseMove true 30 0 1000 1 (onMouseMove true 0 0 0 0 initState)))) = 30
    rw [hm, hs]
    norm_num [listMeanR]
  · show (speedsOf (mevWOf 1000
      (onMouseMove true 30 0 1000 1 (onMouseMove true 0 0 0 0 initState)))).foldl max 0 = 30
    rw [hm, hs]
    simp only [List.foldl_cons, List.foldl_nil]
    norm_num
  · intro m
    unfold speedsOf
    rw [List.length_map]
    exact filter_and_length_le movePair (fun pr => decide (pr.1.t < pr.2.t)) _
